import Mathlib

/-!
# Verification of the upspinfsys adapter

A shallow embedding of the read-only `fs.FS` adapter for Upspin
(`upspinfsys.go`) together with proofs about its path validation, entry
translation, directory pagination and error translation.

Go strings are modelled as lists of characters (`GoStr`); Go's byte-wise
string comparison coincides with code-point lexicographic comparison on
valid UTF-8, which is what `strLt` implements.  The remote Upspin client
is an external collaborator: its operations (`Lookup`, `Open`, `Glob`)
are parameters of the embedded functions, and remote errors are an
abstract type `RemoteErr` whose `notExist` / `permission` constructors
stand for errors matched by `errors.Is(errors.NotExist, ·)` and
`errors.Is(errors.Permission, ·)` respectively.
-/

/-- A Go string, modelled as its list of characters. -/
abbrev GoStr := List Char

/-- Splitting a string at `/` separators, as the element scan inside
`fs.ValidPath` does (the empty string yields one empty element). -/
def splitSlash : GoStr → List GoStr
  | [] => [[]]
  | c :: rest =>
    match splitSlash rest with
    | [] => [[]]
    | g :: gs => if c = '/' then [] :: g :: gs else (c :: g) :: gs

/-- Go `strings.Join`-style interleaving of `/` between path elements. -/
def joinSlash : List GoStr → GoStr
  | [] => []
  | [e] => e
  | e :: rest => e ++ '/' :: joinSlash rest

/-- Go `strings.CutPrefix`, keeping only the cut string. -/
def cutPre (s p : GoStr) : GoStr :=
  if p.isPrefixOf s then s.drop p.length else s

/-- Go `strings.CutSuffix`, keeping only the cut string. -/
def cutSuf (s p : GoStr) : GoStr :=
  if p.isSuffixOf s then s.take (s.length - p.length) else s

/-- Go byte-wise string comparison `a < b` (code-point lexicographic,
which agrees with byte order on valid UTF-8). -/
def strLt : GoStr → GoStr → Bool
  | [], [] => false
  | [], _ :: _ => true
  | _ :: _, [] => false
  | a :: as, b :: bs => if a < b then true else if b < a then false else strLt as bs

/-- Model of `fs.ValidPath` from Go's `io/fs`: `"."` is valid; otherwise every
`/`-separated element must be nonempty and differ from `"."` and `".."`.
(The UTF-8 validity pre-check always holds for representable strings.) -/
def fsValidPath (name : GoStr) : Bool :=
  if name = ['.'] then true
  else (splitSlash name).all fun e => !(e = [] || e = ['.'] || e = ['.', '.'])

/-- An error produced by the remote Upspin client.  `notExist` and
`permission` stand for the errors recognised by
`errors.Is(errors.NotExist, ·)` resp. `errors.Is(errors.Permission, ·)`;
`otherErr` is any other remote failure (tagged to tell instances apart). -/
inductive RemoteErr
  | notExist
  | permission
  | otherErr (code : Nat)
deriving DecidableEq, Repr

/-- A remote `upspin.DirEntry`.  Its full path name `user@host/e1/…/en`
is kept in parsed form (`user` = the part before the first slash, with
no slash inside; `elems` = the path elements): the remote client only
hands back cleaned, parsed path names.  `attrDir` / `attrLink` /
`attrIncomplete` are the `upspin.Attribute` bits; `sizeVal` is the value
returned by `DirEntry.Size()` (whose error the adapter discards) and
`timeVal` the modification timestamp. -/
structure UDirEntry where
  user : GoStr
  elems : List GoStr
  attrDir : Bool
  attrLink : Bool
  attrIncomplete : Bool
  sizeVal : Int
  timeVal : Int
deriving DecidableEq, Repr

/-- Rendering a parsed Upspin path name back to its string: the root is
`user@host/` and a non-root path is `user@host/e1/…/en`. -/
def renderPath (user : GoStr) (elems : List GoStr) : GoStr :=
  user ++ '/' :: joinSlash elems

/-- The full path name string of a remote entry. -/
def UDirEntry.fullName (de : UDirEntry) : GoStr :=
  renderPath de.user de.elems

/-- Model of `upspin.DirEntry.IsDir`. -/
def UDirEntry.isDir (de : UDirEntry) : Bool := de.attrDir

/-- Model of `upspin.DirEntry.IsLink`. -/
def UDirEntry.isLink (de : UDirEntry) : Bool := de.attrLink

/-- Model of `upspin.DirEntry.IsRegular`: the attribute with the incomplete bit
masked off is `AttrNone`. -/
def UDirEntry.isRegular (de : UDirEntry) : Bool :=
  !de.attrDir && !de.attrLink

/-- Model of `upspin.io/path.DropPath(name, 1)` on a parsed path name: drop the
last path element and render (dropping past the root leaves the root). -/
def dropPath1 (user : GoStr) (elems : List GoStr) : GoStr :=
  renderPath user elems.dropLast

/-- Model of `upspin.io/path.Join(p, "*")` for a cleaned non-root path `p`:
appends a slash and the glob element. -/
def joinStar (p : GoStr) : GoStr := p ++ '/' :: ['*']

/-- The type bit `fs.ModeDir` (bit 31 of `fs.FileMode`). -/
def modeDir : Nat := 2 ^ 31

/-- The type bit `fs.ModeSymlink` (bit 27 of `fs.FileMode`). -/
def modeSymlink : Nat := 2 ^ 27

/-- The owner-read permission bit `0o400`. -/
def permRead : Nat := 0o400

/-- The owner-write permission bit `0o200`. -/
def permWrite : Nat := 0o200

/-- The owner-execute permission bit `0o100`. -/
def permExec : Nat := 0o100

/-- The `name` computation inside `fileInfo`: `fpath := path.DropPath(de.Name, 1)`,
`name := de.Name[len(fpath):]`; when `fpath == de.Name` (root-like path)
instead take `fpath` with a trailing `/` cut; finally cut a leading `/`. -/
def fileInfoName (user : GoStr) (elems : List GoStr) : GoStr :=
  let full := renderPath user elems
  let fpath := dropPath1 user elems
  let name := full.drop fpath.length
  let name := if fpath = full then cutSuf fpath ['/'] else name
  cutPre name ['/']

/-- The `mode` computation inside `fileInfo`: start from the literal
`0o700`, then `switch`: a directory entry gets `fs.ModeDir`, otherwise a
link entry gets `fs.ModeSymlink`. -/
def fileInfoMode (de : UDirEntry) : Nat :=
  let m : Nat := 0o700
  if de.isDir then m ||| modeDir
  else if de.isLink then m ||| modeSymlink
  else m

/-- The translated metadata record (`info` in the source, which also
backs `fs.DirEntry` values via `fs.FileInfoToDirEntry`). -/
structure FInfo where
  name : GoStr
  size : Int
  mode : Nat
  modTime : Int
  isDir : Bool
deriving DecidableEq, Repr

/-- Model of `fileInfo`: translate one remote entry into the generic metadata. -/
def fileInfo (de : UDirEntry) : FInfo :=
  { name := fileInfoName de.user de.elems
    size := de.sizeVal
    mode := fileInfoMode de
    modTime := de.timeVal
    isDir := de.isDir }

/-- Model of `dirEntry`: the `fs.DirEntry` made from an entry carries exactly the
translated metadata (`fs.FileInfoToDirEntry` preserves it). -/
def dirEntry (de : UDirEntry) : FInfo := fileInfo de

/-- The underlying cause inside a returned `*fs.PathError`. -/
inductive Cause
  | invalidArg
  | fsNotExist
  | fsPermission
  | lookupWrap (name : GoStr) (e : RemoteErr)
  | notImplemented
  | openWrap (name : GoStr) (e : RemoteErr)
deriving DecidableEq, Repr

/-- A caller-visible error of the adapter.  `pathError` is an
`*fs.PathError`; `wrapMsg` is a `fmt.Errorf("…: %w", …)` wrapper whose
message is recorded verbatim; `remoteRaw` is a remote client error
returned unchanged; `eof` is `io.EOF`. -/
inductive VisErr
  | pathError (op : GoStr) (path : GoStr) (c : Cause)
  | wrapMsg (msg : GoStr) (inner : VisErr)
  | remoteRaw (e : RemoteErr)
  | eof
deriving DecidableEq, Repr

/-- Whether a caller-visible error is a remote error passed through
untranslated. -/
def VisErr.isRemoteRaw : VisErr → Bool
  | .remoteRaw _ => true
  | _ => false

/-- The opened-handle value `Open` returns: a directory handle or a
regular-file handle, each holding the resolved entry. -/
inductive FsFile
  | dirHandle (de : UDirEntry)
  | fileHandle (de : UDirEntry)
deriving DecidableEq, Repr

/-- The operation tag `"open"`. -/
def opOpen : GoStr := ['o', 'p', 'e', 'n']

/-- The error translation in `Open`'s lookup-failure branch:
`errors.Is(errors.NotExist, err)` gives `fs.ErrNotExist`,
`errors.Is(errors.Permission, err)` gives `fs.ErrPermission`, anything
else is wrapped by `fmt.Errorf("failed to lookup file %s: %w", name, err)`. -/
def lookupCause (name : GoStr) (e : RemoteErr) : Cause :=
  match e with
  | .notExist => .fsNotExist
  | .permission => .fsPermission
  | _ => .lookupWrap name e

/-- Model of `uFS.Open`.  The remote client is passed as the two operations the
method uses: `lookup name` models `client.Lookup(name, true)` and
`openF name` models `client.Open(name)` (its payload is irrelevant here,
only success/failure matters). -/
def uFS.Open (lookup : GoStr → Except RemoteErr UDirEntry)
    (openF : GoStr → Except RemoteErr Unit) (name : GoStr) :
    Except VisErr FsFile :=
  if !fsValidPath name then .error (.pathError opOpen name .invalidArg)
  else
    match lookup name with
    | .error e => .error (.pathError opOpen name (lookupCause name e))
    | .ok de =>
      if de.isDir then .ok (.dirHandle de)
      else if !de.isRegular then
        .error (.pathError opOpen name .notImplemented)
      else
        match openF name with
        | .error e => .error (.pathError opOpen name (.openWrap name e))
        | .ok _ => .ok (.fileHandle de)

/-- The message of `fmt.Errorf("failed to get dir entries: %w", err)`
in the package-level `glob` helper. -/
def msgFailedGet : GoStr := "failed to get dir entries".data

/-- The package-level `glob` helper: run the remote `Glob`, wrap its
error, and translate every entry via `dirEntry`. -/
def globHelper (cGlob : GoStr → Except RemoteErr (List UDirEntry))
    (pattern : GoStr) : Except VisErr (List FInfo) :=
  match cGlob pattern with
  | .error e => .error (.wrapMsg msgFailedGet (.remoteRaw e))
  | .ok entries => .ok (entries.map dirEntry)

/-- The message of `fmt.Errorf("readdir: %s: %w", name, err)`. -/
def msgReadDirAt (name : GoStr) : GoStr := "readdir: ".data ++ name

/-- The comparison `des[i].Name() < des[j].Name()` handed to
`sort.Slice`, as the non-strict order the sorted output satisfies. -/
def nameLe (a b : FInfo) : Bool := !strLt b.name a.name

/-- Model of `uFS.ReadDir`: glob `name/*`, wrap failures with `"readdir: name:"`,
sort the entries by name ascending. -/
def uFS.ReadDir (cGlob : GoStr → Except RemoteErr (List UDirEntry))
    (name : GoStr) : Except VisErr (List FInfo) :=
  match globHelper cGlob (joinStar name) with
  | .error e => .error (.wrapMsg (msgReadDirAt name) e)
  | .ok des => .ok (des.mergeSort nameLe)

/-- Model of `uFS.Glob`: delegate to the remote client; a failing remote call's
error is returned unchanged; zero matches yield the `nil` slice (`none`)
with no error; otherwise the full path names of the matches. -/
def uFS.Glob (cGlob : GoStr → Except RemoteErr (List UDirEntry))
    (pattern : GoStr) : Except VisErr (Option (List GoStr)) :=
  match cGlob pattern with
  | .error e => .error (.remoteRaw e)
  | .ok entries =>
    if entries.length = 0 then .ok none
    else .ok (some (entries.map (·.fullName)))

/-- The mutable state of a directory handle (`dir`): the directory's
entry path name, the lazily populated buffer (`none` models the `nil`
slice; population always installs a non-nil slice, possibly empty), and
the read cursor `entriesOffset`. -/
structure DirHandle where
  name : GoStr
  entries : Option (List FInfo)
  entriesOffset : Nat
deriving DecidableEq, Repr

/-- A fresh (unpopulated) handle for the directory entry named `name`,
as `Open` creates it. -/
def freshDir (name : GoStr) : DirHandle :=
  { name := name, entries := none, entriesOffset := 0 }

/-- The message of `fmt.Errorf("reddir %s: %w", d.de.Name, err)` (the
operation label is misspelled in the source). -/
def msgRedDirAt (name : GoStr) : GoStr := "reddir ".data ++ name ++ ": ".data

/-- Model of `dir.ReadDir(n)`: the paginated read.  Returns the Go results
(entry slice or error) together with the updated handle state.  `n` is
a Go `int`, so it may be negative. -/
def dirReadDir (cGlob : GoStr → Except RemoteErr (List UDirEntry))
    (d : DirHandle) (n : Int) : Except VisErr (List FInfo) × DirHandle :=
  match d.entries with
  | some es =>
    if d.entriesOffset = es.length then
      if n ≤ 0 then (.ok [], d)
      else (.error .eof, d)
    else
      let start := d.entriesOffset
      let stop : Nat :=
        if n ≤ 0 ∨ (start : Int) + n > (es.length : Int) then es.length
        else start + n.toNat
      ((.ok ((es.drop start).take (stop - start))),
        { d with entriesOffset := stop })
  | none =>
    match globHelper cGlob (joinStar d.name) with
    | .error e => (.error (.wrapMsg (msgRedDirAt d.name) e), d)
    | .ok des =>
      if n ≤ 0 ∨ n ≥ (des.length : Int) then
        (.ok des, { d with entries := some des, entriesOffset := des.length })
      else
        (.ok (des.take n.toNat),
          { d with entries := some des, entriesOffset := n.toNat })

/-- Repeatedly call `dirReadDir` with the same count `n`, concatenating
the returned entry slices in order, until a call fails (or the fuel runs
out). -/
def drainDir (cGlob : GoStr → Except RemoteErr (List UDirEntry))
    (n : Int) : Nat → DirHandle → List FInfo
  | 0, _ => []
  | fuel + 1, d =>
    match dirReadDir cGlob d n with
    | (.ok out, d') => out ++ drainDir cGlob n fuel d'
    | (.error _, _) => []

instance {ε α : Type} [DecidableEq ε] [DecidableEq α] : DecidableEq (Except ε α) := fun x y =>
  match x, y with
  | .ok a, .ok b => if h : a = b then .isTrue (by rw [h]) else .isFalse (by simp [h])
  | .error a, .error b => if h : a = b then .isTrue (by rw [h]) else .isFalse (by simp [h])
  | .ok _, .error _ => .isFalse (by simp)
  | .error _, .ok _ => .isFalse (by simp)

/-- C4: for every valid path whose remote lookup fails, `Open` returns a
path error with operation `"open"` and the path; its cause is the
generic not-found error when the remote reports `NotExist`, the generic
permission error when it reports `Permission`, and otherwise the
`fmt.Errorf("failed to lookup file %s: %w", …)` wrapper that names the
path and preserves the remote cause. -/
theorem C4_open_translates_lookup_failure
    (lookup : GoStr → Except RemoteErr UDirEntry)
    (openF : GoStr → Except RemoteErr Unit) (name : GoStr) (e : RemoteErr)
    (hv : fsValidPath name = true) (hl : lookup name = .error e) :
    uFS.Open lookup openF name =
      .error (.pathError opOpen name
        (match e with
         | .notExist => .fsNotExist
         | .permission => .fsPermission
         | .otherErr c => .lookupWrap name (.otherErr c))) := by
  unfold uFS.Open
  rw [hv]
  simp only [Bool.not_true, Bool.false_eq_true, if_false, hl]
  cases e <;> rfl

/-- Witness for C4 at a concrete failing client. -/
theorem C4_open_translates_lookup_failure_witness :
    uFS.Open (fun _ => .error RemoteErr.permission) (fun _ => .ok ()) ['a'] =
      .error (.pathError opOpen ['a'] .fsPermission) :=
  C4_open_translates_lookup_failure (fun _ => .error RemoteErr.permission)
    (fun _ => .ok ()) ['a'] .permission (by decide) rfl

/-- C6: when the remote `Glob` succeeds with zero matches, the façade
`Glob` returns the `nil` name slice together with a `nil` error, never
an error. -/
theorem C6_glob_empty_is_not_error
    (cGlob : GoStr → Except RemoteErr (List UDirEntry)) (pattern : GoStr)
    (hg : cGlob pattern = .ok []) :
    uFS.Glob cGlob pattern = .ok none := by
  simp [uFS.Glob, hg]

/-- Witness for C6 at a concrete zero-match client. -/
theorem C6_glob_empty_is_not_error_witness :
    uFS.Glob (fun _ => .ok []) ['p'] = .ok none :=
  C6_glob_empty_is_not_error (fun _ => .ok []) ['p'] rfl

/-- C7: when a valid path resolves (links followed) to an entry that is
neither a directory nor a regular file, `Open` returns the
"not implemented" path error with operation `"open"` and the path, and
the remote file-open operation is never consulted (the result is the
same for every possible `client.Open`). -/
theorem C7_open_unsupported_kind
    (lookup : GoStr → Except RemoteErr UDirEntry)
    (openF openF' : GoStr → Except RemoteErr Unit) (name : GoStr)
    (de : UDirEntry) (hv : fsValidPath name = true)
    (hl : lookup name = .ok de) (hdir : de.isDir = false)
    (hreg : de.isRegular = false) :
    uFS.Open lookup openF name = .error (.pathError opOpen name .notImplemented)
    ∧ uFS.Open lookup openF name = uFS.Open lookup openF' name := by
  unfold uFS.Open
  rw [hv]
  simp [hl, hdir, hreg]

/-- Witness for C7 at a concrete link entry (neither dir nor regular). -/
theorem C7_open_unsupported_kind_witness :
    uFS.Open (fun _ => .ok ⟨['u'], [['l']], false, true, false, 0, 0⟩)
        (fun _ => .ok ()) ['u'] =
      .error (.pathError opOpen ['u'] .notImplemented)
    ∧ uFS.Open (fun _ => .ok ⟨['u'], [['l']], false, true, false, 0, 0⟩)
        (fun _ => .ok ()) ['u'] =
      uFS.Open (fun _ => .ok ⟨['u'], [['l']], false, true, false, 0, 0⟩)
        (fun _ => .error (.otherErr 3)) ['u'] :=
  C7_open_unsupported_kind _ _ _ ['u'] ⟨['u'], [['l']], false, true, false, 0, 0⟩
    (by decide) rfl rfl rfl

/-- C5 (code evaluated at the failing input): the translated mode of a
regular entry is the literal `0o700`, which contains the owner-write
permission bit `0o200` — contradicting the source's own comment ("0700
gives the owner read and execute permissions") and the spec's
"owner read+execute, no write"; the directory / symlink type bits are
added as described. -/
theorem C5_mode_bits_evaluated :
    (fileInfo ⟨['u'], [['f']], false, false, false, 0, 0⟩).mode = 0o700
    ∧ 0o700 &&& permWrite = permWrite
    ∧ 0o700 &&& permRead = permRead
    ∧ 0o700 &&& permExec = permExec
    ∧ (fileInfo ⟨['u'], [['d']], true, false, false, 0, 0⟩).mode =
        (0o700 ||| modeDir)
    ∧ (fileInfo ⟨['u'], [['l']], false, true, false, 0, 0⟩).mode =
        (0o700 ||| modeSymlink) := by
  refine ⟨rfl, by decide, by decide, by decide, rfl, rfl⟩

/-- C10: on a directory whose remote listing is empty, the first
paginated read with `n > 0` populates the handle with a non-nil empty
buffer (cursor already at its end) and returns an empty slice with no
error; only the second `n > 0` call returns `io.EOF`. -/
theorem C10_empty_listing_first_read_ok
    (cGlob : GoStr → Except RemoteErr (List UDirEntry)) (nm : GoStr)
    (hg : cGlob (joinStar nm) = .ok []) (n : Int) (hn : 0 < n) :
    (dirReadDir cGlob (freshDir nm) n).1 = .ok []
    ∧ (dirReadDir cGlob (freshDir nm) n).2 =
        { name := nm, entries := some [], entriesOffset := 0 }
    ∧ (dirReadDir cGlob (dirReadDir cGlob (freshDir nm) n).2 n).1 =
        .error .eof := by
  have hdes : globHelper cGlob (joinStar nm) = .ok ([] : List FInfo) := by
    simp [globHelper, hg]
  have hfirst : dirReadDir cGlob (freshDir nm) n =
      (.ok [], { name := nm, entries := some [], entriesOffset := 0 }) := by
    simp [dirReadDir, freshDir, hdes, le_of_lt hn]
  refine ⟨by rw [hfirst], by rw [hfirst], ?_⟩
  rw [hfirst]
  simp [dirReadDir, not_le.mpr hn]

/-- Witness for C10 at a concrete empty-directory client. -/
theorem C10_empty_listing_first_read_ok_witness :
    (dirReadDir (fun _ => .ok []) (freshDir ['d']) 5).1 = .ok []
    ∧ (dirReadDir (fun _ => .ok []) (freshDir ['d']) 5).2 =
        { name := ['d'], entries := some [], entriesOffset := 0 }
    ∧ (dirReadDir (fun _ => .ok [])
        (dirReadDir (fun _ => .ok []) (freshDir ['d']) 5).2 5).1 =
        .error .eof :=
  C10_empty_listing_first_read_ok (fun _ => .ok []) ['d'] rfl 5 (by decide)

/-- C3 counterexample: the path `"."` consists of a single `"."`
segment, yet `fs.ValidPath` deems it valid, so `Open(".")` consults the
remote client instead of failing with the "invalid argument" path
error — the resolution outcome (here: a directory handle, resp. a
not-found error) depends on the remote answer. -/
theorem C3_counterexample_dot_path :
    splitSlash ['.'] = [['.']]
    ∧ fsValidPath ['.'] = true
    ∧ uFS.Open (fun _ => .ok ⟨['u'], [], true, false, false, 0, 0⟩)
        (fun _ => .ok ()) ['.'] =
        .ok (.dirHandle ⟨['u'], [], true, false, false, 0, 0⟩)
    ∧ uFS.Open (fun _ => .error .notExist) (fun _ => .ok ()) ['.'] =
        .error (.pathError opOpen ['.'] .fsNotExist) :=
  ⟨rfl, rfl, rfl, rfl⟩

/-- C3 (amended): for every path other than the special-cased `"."`
that is empty, rooted, or contains a `"."`, `".."` or empty segment,
`Open` returns the "invalid argument" path error with operation
`"open"` and the path, and the result is independent of the remote
client (no remote call is made). -/
theorem C3_open_rejects_invalid_path
    (lookup lookup' : GoStr → Except RemoteErr UDirEntry)
    (openF openF' : GoStr → Except RemoteErr Unit) (name : GoStr)
    (hne : name ≠ ['.'])
    (hbad : ∃ e ∈ splitSlash name, e = [] ∨ e = ['.'] ∨ e = ['.', '.']) :
    uFS.Open lookup openF name = .error (.pathError opOpen name .invalidArg)
    ∧ uFS.Open lookup openF name = uFS.Open lookup' openF' name := by
  have hv : fsValidPath name = false := by
    unfold fsValidPath
    rw [if_neg hne, List.all_eq_false]
    obtain ⟨e, hmem, hcase⟩ := hbad
    exact ⟨e, hmem, by rcases hcase with h | h | h <;> simp [h]⟩
  constructor <;> simp [uFS.Open, hv]

/-- Witness for C3's amended statement at the rooted path `"/a"`. -/
theorem C3_open_rejects_invalid_path_witness :
    uFS.Open (fun _ => .ok ⟨['u'], [], true, false, false, 0, 0⟩)
        (fun _ => .ok ()) ['/', 'a'] =
      .error (.pathError opOpen ['/', 'a'] .invalidArg)
    ∧ uFS.Open (fun _ => .ok ⟨['u'], [], true, false, false, 0, 0⟩)
        (fun _ => .ok ()) ['/', 'a'] =
      uFS.Open (fun _ => .error .notExist) (fun _ => .error (.otherErr 1))
        ['/', 'a'] :=
  C3_open_rejects_invalid_path _ _ _ _ ['/', 'a'] (by decide)
    ⟨[], by decide, Or.inl rfl⟩

lemma cutPre_cons (c : Char) (s : GoStr) : cutPre (c :: s) [c] = s := by
  have h : [c].isPrefixOf (c :: s) = true := by simp [List.isPrefixOf]
  simp [cutPre, h]

lemma cutPre_of_not_mem (s : GoStr) (c : Char) (h : c ∉ s) :
    cutPre s [c] = s := by
  unfold cutPre
  cases s with
  | nil => simp
  | cons d ds =>
    have hcd : c ≠ d := fun he => h (he ▸ List.mem_cons_self d ds)
    have hp : ([c].isPrefixOf (d :: ds)) = false := by
      simp [List.isPrefixOf, hcd]
    simp [hp]

lemma cutSuf_append_single (s : GoStr) (c : Char) :
    cutSuf (s ++ [c]) [c] = s := by
  have h : [c] <:+ s ++ [c] := List.suffix_append s [c]
  simp [cutSuf, List.isSuffixOf_iff_suffix.mpr h]

lemma joinSlash_cons_cons (e e' : GoStr) (es : List GoStr) :
    joinSlash (e :: e' :: es) = e ++ '/' :: joinSlash (e' :: es) := rfl

lemma joinSlash_concat_cons (e : GoStr) (es : List GoStr) (l : GoStr) :
    joinSlash ((e :: es) ++ [l]) = joinSlash (e :: es) ++ '/' :: l := by
  induction es generalizing e with
  | nil => simp [joinSlash]
  | cons e' es' ih =>
    simp only [List.cons_append] at ih ⊢
    rw [joinSlash_cons_cons, ih e', joinSlash_cons_cons]
    simp

lemma renderPath_concat (user : GoStr) (es : List GoStr) (l : GoStr) :
    renderPath user (es ++ [l]) =
      if es = [] then renderPath user es ++ l
      else renderPath user es ++ '/' :: l := by
  cases es with
  | nil => simp [renderPath, joinSlash]
  | cons e es' =>
    rw [if_neg (by simp)]
    unfold renderPath
    rw [joinSlash_concat_cons]
    simp

lemma fileInfoName_eq (user : GoStr) (elems : List GoStr) :
    fileInfoName user elems =
      cutPre (if dropPath1 user elems = renderPath user elems
              then cutSuf (dropPath1 user elems) ['/']
              else (renderPath user elems).drop (dropPath1 user elems).length)
        ['/'] := rfl

lemma fileInfoName_nil (user : GoStr) (hu : '/' ∉ user) :
    fileInfoName user [] = user := by
  rw [fileInfoName_eq]
  have hd : dropPath1 user [] = renderPath user [] := rfl
  rw [if_pos hd]
  rw [show dropPath1 user [] = user ++ ['/'] from rfl]
  rw [cutSuf_append_single, cutPre_of_not_mem _ _ hu]

lemma fileInfoName_concat (user : GoStr) (es : List GoStr) (l : GoStr)
    (hlne : l ≠ []) (hlm : '/' ∉ l) :
    fileInfoName user (es ++ [l]) = l := by
  rw [fileInfoName_eq]
  have hd : dropPath1 user (es ++ [l]) = renderPath user es := by
    unfold dropPath1
    rw [List.dropLast_concat]
  cases es with
  | nil =>
    have hfull : renderPath user ([] ++ [l]) = renderPath user [] ++ l := by
      rw [renderPath_concat, if_pos rfl]
    have hne : dropPath1 user ([] ++ [l]) ≠ renderPath user ([] ++ [l]) := by
      rw [hd, hfull]
      intro h
      have hlen := congrArg List.length h
      rw [List.length_append] at hlen
      have hz : l.length = 0 := by omega
      exact hlne (List.length_eq_zero.mp hz)
    rw [if_neg hne, hd, hfull, List.drop_left, cutPre_of_not_mem _ _ hlm]
  | cons e es' =>
    have hfull : renderPath user ((e :: es') ++ [l])
        = renderPath user (e :: es') ++ '/' :: l := by
      rw [renderPath_concat, if_neg (by simp)]
    have hne : dropPath1 user ((e :: es') ++ [l])
        ≠ renderPath user ((e :: es') ++ [l]) := by
      rw [hd, hfull]
      intro h
      have hlen := congrArg List.length h
      rw [List.length_append, List.length_cons] at hlen
      omega
    rw [if_neg hne, hd, hfull, List.drop_left, cutPre_cons]

/-- C8: the translated Descriptor's `name` is the final path element of
the entry's full path name, or the path with its trailing separator
stripped (= the user root) when the entry is a root with no parent; the
name never contains a path separator.  The hypotheses record that the
remote client hands back parsed-clean path names: no separator inside
the user part, nonempty separator-free path elements. -/
theorem C8_descriptor_name_is_last_segment (de : UDirEntry)
    (hu : '/' ∉ de.user)
    (he : ∀ e ∈ de.elems, e ≠ [] ∧ '/' ∉ e) :
    (fileInfo de).name = de.elems.getLastD de.user
    ∧ '/' ∉ (fileInfo de).name := by
  show fileInfoName de.user de.elems = de.elems.getLastD de.user
    ∧ '/' ∉ fileInfoName de.user de.elems
  rcases List.eq_nil_or_concat de.elems with hnil | ⟨es, l, hcat⟩
  · rw [hnil, fileInfoName_nil de.user hu]
    exact ⟨rfl, hu⟩
  · rw [List.concat_eq_append] at hcat
    have hl : l ∈ de.elems := by rw [hcat]; simp
    obtain ⟨hlne, hlm⟩ := he l hl
    rw [hcat, fileInfoName_concat de.user es l hlne hlm, List.getLastD_concat]
    exact ⟨rfl, hlm⟩

/-- Witness for C8 at the entry `u@h/a/b.txt`. -/
theorem C8_descriptor_name_is_last_segment_witness :
    (fileInfo ⟨"u@h".data, ["a".data, "b.txt".data],
        false, false, false, 0, 0⟩).name
      = (["a".data, "b.txt".data] : List GoStr).getLastD "u@h".data
    ∧ '/' ∉ (fileInfo ⟨"u@h".data, ["a".data, "b.txt".data],
        false, false, false, 0, 0⟩).name :=
  C8_descriptor_name_is_last_segment
    ⟨"u@h".data, ["a".data, "b.txt".data], false, false, false, 0, 0⟩
    (by decide) (by decide)

lemma dirReadDir_at_end (cGlob : GoStr → Except RemoteErr (List UDirEntry))
    (nm : GoStr) (es : List FInfo) (n : Int) :
    dirReadDir cGlob ⟨nm, some es, es.length⟩ n =
      if n ≤ 0 then (.ok [], ⟨nm, some es, es.length⟩)
      else (.error .eof, ⟨nm, some es, es.length⟩) := by
  simp only [dirReadDir]
  split <;> simp_all

lemma dirReadDir_mid_big (cGlob : GoStr → Except RemoteErr (List UDirEntry))
    (nm : GoStr) (es : List FInfo) (off : Nat) (n : Int)
    (hoff : off < es.length) (hn : 0 < n)
    (hbig : (es.length : Int) < (off : Int) + n) :
    dirReadDir cGlob ⟨nm, some es, off⟩ n =
      (.ok (es.drop off), ⟨nm, some es, es.length⟩) := by
  have h1 : ¬(off = es.length) := by omega
  have h2 : ¬(n ≤ 0) := by omega
  have hout : (es.drop off).take (es.length - off) = es.drop off := by
    rw [← List.length_drop]
    exact List.take_length _
  simp [dirReadDir, h1, h2, hbig, hout]

lemma dirReadDir_mid_small (cGlob : GoStr → Except RemoteErr (List UDirEntry))
    (nm : GoStr) (es : List FInfo) (off : Nat) (n : Int)
    (hoff : off < es.length) (hn : 0 < n)
    (hsmall : (off : Int) + n ≤ (es.length : Int)) :
    dirReadDir cGlob ⟨nm, some es, off⟩ n =
      (.ok ((es.drop off).take n.toNat), ⟨nm, some es, off + n.toNat⟩) := by
  have h1 : ¬(off = es.length) := by omega
  have h2 : ¬(n ≤ 0) := by omega
  have h3 : ¬((es.length : Int) < (off : Int) + n) := by omega
  have hout : off + n.toNat - off = n.toNat := by omega
  simp [dirReadDir, h1, h2, h3, hout]

lemma dirReadDir_unpop (cGlob : GoStr → Except RemoteErr (List UDirEntry))
    (nm : GoStr) (des : List FInfo) (n : Int)
    (hg : globHelper cGlob (joinStar nm) = .ok des) :
    dirReadDir cGlob (freshDir nm) n =
      if n ≤ 0 ∨ (des.length : Int) ≤ n
      then (.ok des, ⟨nm, some des, des.length⟩)
      else (.ok (des.take n.toNat), ⟨nm, some des, n.toNat⟩) := by
  simp only [dirReadDir, freshDir, hg]

lemma drainDir_succ (cGlob : GoStr → Except RemoteErr (List UDirEntry))
    (n : Int) (fuel : Nat) (d : DirHandle) :
    drainDir cGlob n (fuel + 1) d =
      match dirReadDir cGlob d n with
      | (.ok out, d') => out ++ drainDir cGlob n fuel d'
      | (.error _, _) => [] := rfl

lemma drainDir_populated (cGlob : GoStr → Except RemoteErr (List UDirEntry))
    (nm : GoStr) (es : List FInfo) (n : Int) (hn : 0 < n) :
    ∀ fuel off, off ≤ es.length → es.length - off < fuel →
      drainDir cGlob n fuel ⟨nm, some es, off⟩ = es.drop off := by
  intro fuel
  induction fuel with
  | zero => intro off _ h; omega
  | succ f ih =>
    intro off hoff hf
    by_cases hend : off = es.length
    · subst hend
      rw [drainDir_succ, dirReadDir_at_end, if_neg (by omega)]
      simp [List.drop_length]
    · have hlt : off < es.length := by omega
      by_cases hbig : (es.length : Int) < (off : Int) + n
      · rw [drainDir_succ, dirReadDir_mid_big cGlob nm es off n hlt hn hbig]
        have hrec : drainDir cGlob n f ⟨nm, some es, es.length⟩ = [] := by
          rw [ih es.length (le_refl _) (by omega)]
          exact List.drop_length es
        simp [hrec]
      · have hsmall : (off : Int) + n ≤ (es.length : Int) := by omega
        rw [drainDir_succ, dirReadDir_mid_small cGlob nm es off n hlt hn hsmall]
        have hle : off + n.toNat ≤ es.length := by omega
        have hrec : drainDir cGlob n f ⟨nm, some es, off + n.toNat⟩
            = es.drop (off + n.toNat) := by
          apply ih (off + n.toNat) hle
          omega
        simp only [hrec]
        rw [← List.drop_drop, List.take_append_drop]

lemma drainDir_fresh (cGlob : GoStr → Except RemoteErr (List UDirEntry))
    (nm : GoStr) (L : List UDirEntry) (hg : cGlob (joinStar nm) = .ok L)
    (n : Int) (hn : 0 < n) (fuel : Nat) (hf : L.length + 1 < fuel) :
    drainDir cGlob n fuel (freshDir nm) = L.map dirEntry := by
  have hdes : globHelper cGlob (joinStar nm) = .ok (L.map dirEntry) := by
    simp [globHelper, hg]
  have hlen : (L.map dirEntry).length = L.length := List.length_map _ _
  cases fuel with
  | zero => omega
  | succ f =>
    rw [drainDir_succ, dirReadDir_unpop cGlob nm (L.map dirEntry) n hdes]
    by_cases hbig : ((L.map dirEntry).length : Int) ≤ n
    · rw [if_pos (Or.inr hbig)]
      have hrec : drainDir cGlob n f
          ⟨nm, some (L.map dirEntry), (L.map dirEntry).length⟩ = [] := by
        rw [drainDir_populated cGlob nm (L.map dirEntry) n hn f
          (L.map dirEntry).length (le_refl _) (by omega)]
        exact List.drop_length _
      simp only [List.length_map] at hrec
      simp [hrec]
    · rw [if_neg (by rw [not_or]; exact ⟨by omega, hbig⟩)]
      have h1 : n.toNat ≤ (L.map dirEntry).length := by omega
      have hrec := drainDir_populated cGlob nm (L.map dirEntry) n hn f
        n.toNat h1 (by omega)
      simp only [hrec]
      exact List.take_append_drop _ _

/-- C1: from a fresh directory handle, repeated paginated reads with a
fixed `n > 0`, concatenated in call order, return exactly the entry
sequence a single read with `m ≤ 0` returns; and on any populated
handle whose cursor sits at the end of the buffer, a read with `n > 0`
returns `io.EOF` while a read with `m ≤ 0` returns an empty result with
no error. -/
theorem C1_pagination_drain_and_eof
    (cGlob : GoStr → Except RemoteErr (List UDirEntry)) (nm : GoStr)
    (L : List UDirEntry) (hg : cGlob (joinStar nm) = .ok L)
    (n m : Int) (hn : 0 < n) (hm : m ≤ 0) (fuel : Nat)
    (hf : L.length + 1 < fuel)
    (es : List FInfo) (off : Nat) (hoff : off = es.length) :
    drainDir cGlob n fuel (freshDir nm) = L.map dirEntry
    ∧ (dirReadDir cGlob (freshDir nm) m).1 = .ok (L.map dirEntry)
    ∧ (dirReadDir cGlob ⟨nm, some es, off⟩ n).1 = .error .eof
    ∧ (dirReadDir cGlob ⟨nm, some es, off⟩ m).1 = .ok [] := by
  have hdes : globHelper cGlob (joinStar nm) = .ok (L.map dirEntry) := by
    simp [globHelper, hg]
  subst hoff
  refine ⟨drainDir_fresh cGlob nm L hg n hn fuel hf, ?_, ?_, ?_⟩
  · rw [dirReadDir_unpop cGlob nm (L.map dirEntry) m hdes, if_pos (Or.inl hm)]
  · rw [dirReadDir_at_end, if_neg (by omega)]
  · rw [dirReadDir_at_end, if_pos hm]

/-- A sample remote entry `u@h/a`. -/
def entA : UDirEntry := ⟨['u'], [['a']], false, false, false, 1, 2⟩

/-- A sample remote entry `u@h/b`. -/
def entB : UDirEntry := ⟨['u'], [['b']], false, false, false, 3, 4⟩

/-- A remote client whose `Glob` always lists `entA` then `entB`. -/
def gAB : GoStr → Except RemoteErr (List UDirEntry) := fun _ => .ok [entA, entB]

/-- Witness for C1 with a two-entry directory, `n = 1`, `m = 0`. -/
theorem C1_pagination_drain_and_eof_witness :
    drainDir gAB 1 4 (freshDir ['d']) = [entA, entB].map dirEntry
    ∧ (dirReadDir gAB (freshDir ['d']) 0).1 = .ok ([entA, entB].map dirEntry)
    ∧ (dirReadDir gAB ⟨['d'], some [], 0⟩ 1).1 = .error .eof
    ∧ (dirReadDir gAB ⟨['d'], some [], 0⟩ 0).1 = .ok [] :=
  C1_pagination_drain_and_eof gAB ['d'] [entA, entB] rfl 1 0 (by decide)
    (by decide) 4 (by decide) [] 0 rfl

lemma strLt_asymm : ∀ a b : GoStr, strLt a b = true → strLt b a = false := by
  intro a
  induction a with
  | nil =>
    intro b h
    cases b with
    | nil => simp [strLt] at h
    | cons c cs => simp [strLt]
  | cons x xs ih =>
    intro b h
    cases b with
    | nil => simp [strLt] at h
    | cons y ys =>
      simp only [strLt] at h ⊢
      by_cases hxy : x < y
      · rw [if_neg (lt_asymm hxy), if_pos hxy]
      · rw [if_neg hxy] at h
        by_cases hyx : y < x
        · rw [if_pos hyx] at h
          exact absurd h (by simp)
        · rw [if_neg hyx] at h
          rw [if_neg hyx, if_neg hxy]
          exact ih ys h

lemma strLt_trans : ∀ a b c : GoStr,
    strLt a b = true → strLt b c = true → strLt a c = true := by
  intro a
  induction a with
  | nil =>
    intro b c hab hbc
    cases c with
    | nil => cases b <;> simp [strLt] at hbc
    | cons z zs => simp [strLt]
  | cons x xs ih =>
    intro b c hab hbc
    cases b with
    | nil => simp [strLt] at hab
    | cons y ys =>
      cases c with
      | nil => simp [strLt] at hbc
      | cons z zs =>
        simp only [strLt] at hab hbc ⊢
        by_cases hxy : x < y
        · by_cases hyz : y < z
          · rw [if_pos (lt_trans hxy hyz)]
          · rw [if_neg hyz] at hbc
            by_cases hzy : z < y
            · rw [if_pos hzy] at hbc
              exact absurd hbc (by simp)
            · rw [if_neg hzy] at hbc
              have hyzeq : y = z := le_antisymm (le_of_not_lt hzy) (le_of_not_lt hyz)
              rw [if_pos (hyzeq ▸ hxy)]
        · rw [if_neg hxy] at hab
          by_cases hyx : y < x
          · rw [if_pos hyx] at hab
            exact absurd hab (by simp)
          · rw [if_neg hyx] at hab
            have hxyeq : x = y := le_antisymm (le_of_not_lt hyx) (le_of_not_lt hxy)
            subst hxyeq
            by_cases hxz : x < z
            · rw [if_pos hxz]
            · rw [if_neg hxz] at hbc ⊢
              by_cases hzx : z < x
              · rw [if_pos hzx] at hbc
                exact absurd hbc (by simp)
              · rw [if_neg hzx] at hbc ⊢
                exact ih ys zs hab hbc

lemma strLt_conn : ∀ a b : GoStr,
    strLt a b = false → strLt b a = false → a = b := by
  intro a
  induction a with
  | nil =>
    intro b h1 _
    cases b with
    | nil => rfl
    | cons c cs => simp [strLt] at h1
  | cons x xs ih =>
    intro b h1 h2
    cases b with
    | nil => simp [strLt] at h2
    | cons y ys =>
      simp only [strLt] at h1 h2
      by_cases hxy : x < y
      · rw [if_pos hxy] at h1
        exact absurd h1 (by simp)
      · rw [if_neg hxy] at h1
        by_cases hyx : y < x
        · rw [if_pos hyx] at h2
          exact absurd h2 (by simp)
        · rw [if_neg hyx] at h1 h2
          rw [if_neg hxy] at h2
          have hxyeq : x = y := le_antisymm (le_of_not_lt hyx) (le_of_not_lt hxy)
          rw [hxyeq, ih ys h1 h2]

lemma nameLe_trans (a b c : FInfo)
    (h1 : nameLe a b = true) (h2 : nameLe b c = true) : nameLe a c = true := by
  unfold nameLe at *
  rw [Bool.not_eq_true'] at h1 h2 ⊢
  by_cases hca : strLt c.name a.name = true
  · by_cases hbc : strLt b.name c.name = true
    · rw [strLt_trans b.name c.name a.name hbc hca] at h1
      exact absurd h1 (by simp)
    · have hbceq := strLt_conn c.name b.name h2 (Bool.not_eq_true _ ▸ hbc)
      rw [← hbceq] at h1
      rw [h1] at hca
      exact absurd hca (by simp)
  · exact Bool.not_eq_true _ ▸ hca

lemma nameLe_total (a b : FInfo) : (nameLe a b || nameLe b a) = true := by
  unfold nameLe
  by_cases h : strLt b.name a.name = true
  · rw [strLt_asymm b.name a.name h]
    simp
  · have h' : strLt b.name a.name = false := by
      cases hb : strLt b.name a.name
      · rfl
      · exact absurd hb h
    rw [h']
    simp

/-- C2: for a directory path `p` on which both succeed, `Open(p)`
returns a directory handle; the one-shot `ReadDir(p)` returns the
listing sorted by name, the fully drained pagination on the handle
returns the listing in the remote client's order; the two carry
identical name multisets, and both are sorted by name in byte-wise
ascending order.  (`hsorted` is the Upspin collaborator's `Glob`
contract: matches arrive in path order, which within one directory is
name order.) -/
theorem C2_oneshot_and_drained_agree
    (lookup : GoStr → Except RemoteErr UDirEntry)
    (openF : GoStr → Except RemoteErr Unit)
    (cGlob : GoStr → Except RemoteErr (List UDirEntry))
    (p : GoStr) (de : UDirEntry) (L : List UDirEntry)
    (hv : fsValidPath p = true) (hl : lookup p = .ok de)
    (hd : de.isDir = true) (hname : de.fullName = p)
    (hg : cGlob (joinStar p) = .ok L)
    (hsorted : List.Pairwise (fun a b => nameLe a b = true) (L.map dirEntry))
    (n : Int) (hn : 0 < n) (fuel : Nat) (hf : L.length + 1 < fuel) :
    uFS.Open lookup openF p = .ok (.dirHandle de)
    ∧ uFS.ReadDir cGlob p = .ok ((L.map dirEntry).mergeSort nameLe)
    ∧ drainDir cGlob n fuel (freshDir de.fullName) = L.map dirEntry
    ∧ (((L.map dirEntry).mergeSort nameLe).map FInfo.name).Perm
        ((L.map dirEntry).map FInfo.name)
    ∧ List.Pairwise (fun a b => nameLe a b = true)
        ((L.map dirEntry).mergeSort nameLe)
    ∧ List.Pairwise (fun a b => nameLe a b = true) (L.map dirEntry) := by
  refine ⟨?_, ?_, ?_, ?_, ?_, hsorted⟩
  · simp [uFS.Open, hv, hl, hd]
  · simp [uFS.ReadDir, globHelper, hg]
  · rw [hname]
    exact drainDir_fresh cGlob p L hg n hn fuel hf
  · exact (List.mergeSort_perm (L.map dirEntry) nameLe).map FInfo.name
  · exact List.sorted_mergeSort nameLe_trans nameLe_total (L.map dirEntry)

/-- A sample remote directory entry `u/d`. -/
def entD : UDirEntry := ⟨['u'], [['d']], true, false, false, 0, 0⟩

/-- Witness for C2 on the two-entry directory `u/d`. -/
theorem C2_oneshot_and_drained_agree_witness :
    uFS.Open (fun _ => .ok entD) (fun _ => .ok ()) ['u', '/', 'd'] =
      .ok (.dirHandle entD)
    ∧ uFS.ReadDir gAB ['u', '/', 'd'] =
        .ok (([entA, entB].map dirEntry).mergeSort nameLe)
    ∧ drainDir gAB 1 4 (freshDir entD.fullName) = [entA, entB].map dirEntry
    ∧ ((([entA, entB].map dirEntry).mergeSort nameLe).map FInfo.name).Perm
        (([entA, entB].map dirEntry).map FInfo.name)
    ∧ List.Pairwise (fun a b => nameLe a b = true)
        (([entA, entB].map dirEntry).mergeSort nameLe)
    ∧ List.Pairwise (fun a b => nameLe a b = true)
        ([entA, entB].map dirEntry) :=
  C2_oneshot_and_drained_agree (fun _ => .ok entD) (fun _ => .ok ()) gAB
    ['u', '/', 'd'] entD [entA, entB] (by decide) rfl rfl rfl rfl
    (by decide) 1 (by decide) 4 (by decide)

/-- C9 counterexample: when the remote `Glob` fails, the façade `Glob`
returns the remote client's error object unchanged — a remote-specific
error in the caller-visible result, carrying neither an operation name
nor the pattern/path involved. -/
theorem C9_counterexample_glob_passthrough :
    uFS.Glob (fun _ => .error (.otherErr 7)) ['p'] =
      .error (.remoteRaw (.otherErr 7))
    ∧ (VisErr.remoteRaw (.otherErr 7)).isRemoteRaw = true :=
  ⟨rfl, rfl⟩

/-- C9 (amended): remote failures of `Open` — of the `Lookup` call and
of the `client.Open` call on a resolved regular file alike — become
path errors carrying operation `"open"` and the path; remote failures
of the one-shot `ReadDir` and of the paginated directory read are
wrapped in messages that carry an operation label (`"readdir: "` resp.
the misspelled `"reddir "`) and the path, with the original remote
cause preserved inside the wrap chain; but `Glob` returns the remote
client's error verbatim, untranslated and untagged. -/
theorem C9_error_translation_boundary
    (lookup lookup2 : GoStr → Except RemoteErr UDirEntry)
    (openF openF2 : GoStr → Except RemoteErr Unit)
    (cGlob : GoStr → Except RemoteErr (List UDirEntry))
    (name name2 nm pat : GoStr) (de2 : UDirEntry)
    (e eo er eg : RemoteErr) (n : Int)
    (hv : fsValidPath name = true) (hl : lookup name = .error e)
    (hv2 : fsValidPath name2 = true) (hl2 : lookup2 name2 = .ok de2)
    (hd2 : de2.isDir = false) (hr2 : de2.isRegular = true)
    (ho2 : openF2 name2 = .error eo)
    (hgr : cGlob (joinStar nm) = .error er) (hgp : cGlob pat = .error eg) :
    uFS.Open lookup openF name =
      .error (.pathError opOpen name (lookupCause name e))
    ∧ (VisErr.pathError opOpen name (lookupCause name e)).isRemoteRaw = false
    ∧ uFS.Open lookup2 openF2 name2 =
        .error (.pathError opOpen name2 (.openWrap name2 eo))
    ∧ (VisErr.pathError opOpen name2 (.openWrap name2 eo)).isRemoteRaw = false
    ∧ uFS.ReadDir cGlob nm =
        .error (.wrapMsg (msgReadDirAt nm)
          (.wrapMsg msgFailedGet (.remoteRaw er)))
    ∧ (dirReadDir cGlob (freshDir nm) n).1 =
        .error (.wrapMsg (msgRedDirAt nm)
          (.wrapMsg msgFailedGet (.remoteRaw er)))
    ∧ uFS.Glob cGlob pat = .error (.remoteRaw eg) := by
  refine ⟨?_, rfl, ?_, rfl, ?_, ?_, ?_⟩
  · unfold uFS.Open
    rw [hv]
    simp [hl]
  · unfold uFS.Open
    rw [hv2]
    simp [hl2, hd2, hr2, ho2]
  · simp [uFS.ReadDir, globHelper, hgr]
  · simp [dirReadDir, freshDir, globHelper, hgr]
  · simp [uFS.Glob, hgp]

/-- Witness for C9's amended statement with always-failing remotes: a
failing `Lookup`, a regular file `u/f` whose `client.Open` fails, a
failing directory listing and a failing `Glob`. -/
theorem C9_error_translation_boundary_witness :
    uFS.Open (fun _ => .error (.otherErr 5)) (fun _ => .ok ()) ['a'] =
      .error (.pathError opOpen ['a'] (lookupCause ['a'] (.otherErr 5)))
    ∧ (VisErr.pathError opOpen ['a']
        (lookupCause ['a'] (.otherErr 5))).isRemoteRaw = false
    ∧ uFS.Open (fun _ => .ok ⟨['u'], [['f']], false, false, false, 0, 0⟩)
        (fun _ => .error (.otherErr 9)) ['u', '/', 'f'] =
        .error (.pathError opOpen ['u', '/', 'f']
          (.openWrap ['u', '/', 'f'] (.otherErr 9)))
    ∧ (VisErr.pathError opOpen ['u', '/', 'f']
        (.openWrap ['u', '/', 'f'] (.otherErr 9))).isRemoteRaw = false
    ∧ uFS.ReadDir (fun _ => .error (.otherErr 6)) ['d'] =
        .error (.wrapMsg (msgReadDirAt ['d'])
          (.wrapMsg msgFailedGet (.remoteRaw (.otherErr 6))))
    ∧ (dirReadDir (fun _ => .error (.otherErr 6)) (freshDir ['d']) 2).1 =
        .error (.wrapMsg (msgRedDirAt ['d'])
          (.wrapMsg msgFailedGet (.remoteRaw (.otherErr 6))))
    ∧ uFS.Glob (fun _ => .error (.otherErr 6)) ['p'] =
        .error (.remoteRaw (.otherErr 6)) :=
  C9_error_translation_boundary (fun _ => .error (.otherErr 5))
    (fun _ => .ok ⟨['u'], [['f']], false, false, false, 0, 0⟩)
    (fun _ => .ok ()) (fun _ => .error (.otherErr 9))
    (fun _ => .error (.otherErr 6)) ['a'] ['u', '/', 'f'] ['d'] ['p']
    ⟨['u'], [['f']], false, false, false, 0, 0⟩
    (.otherErr 5) (.otherErr 9) (.otherErr 6) (.otherErr 6) 2
    (by decide) rfl (by decide) rfl rfl (by decide) rfl rfl rfl
